import Mathlib

/-!
Verification development for the nango integration-DSL build-time compiler
and the Pizzly HTTP access middleware.

The repository ships the compiler's unit tests
(`packages/cli/lib/sync.unit.cli-test.ts`) but not the service code they
exercise (`config.service.ts`, `parser.service.ts`, `compile.service.ts`,
`cli.ts`); those components are therefore modelled here from the
specification's component design (spec sections 3, 4.1 - 4.4, 7, 8).
The access middleware (`src/lib/access/index.ts`) is present in the
repository and is embedded directly from its source.
-/

namespace Nango

/-- Modelled from the spec: the two operation kinds of the DSL
(spec section 3, `OperationConfig.kind`). -/
inductive OpKind where
  | sync
  | action
deriving DecidableEq, Repr

/-! ## Usage Analyzer (spec section 4.3; `parser.service.ts` is absent from `src/`)

A source file's handler body is modelled as a statement tree.  The analyzer
`callsAreUsedCorrectly` performs a single walk carrying the two pieces of
context the spec's rules need: whether the walk is inside a try/catch block
and whether it is inside a function nested within the handler. -/

/-- Modelled from the spec: the option object of a platform call, restricted
to the two options the usage contract constrains (spec section 4.3,
`retryOn` / `retries` co-occurrence rule). -/
structure CallOptions where
  hasRetryOn : Bool
  hasRetries : Bool
deriving DecidableEq, Repr

/-- Modelled from the spec: an expression as far as the usage contract
observes it -- a platform persist/fetch call (awaited or not, with an
optional option object), a reference to a model identifier, or anything
else. -/
inductive PExpr where
  | platformCall (awaited : Bool) (opts : Option CallOptions)
  | modelUse (name : String)
  | plain
deriving DecidableEq, Repr

/-- Modelled from the spec: statements of a handler body.  `tryCatch` holds
the try block and the catch block; `ret none` is a bare return statement;
`nestedFn` is a function defined inside the handler (spec section 4.3). -/
inductive Stmt where
  | skip
  | seq (s1 s2 : Stmt)
  | exprStmt (e : PExpr)
  | tryCatch (body handler : Stmt)
  | ret (e : Option PExpr)
  | nestedFn (body : Stmt)
deriving DecidableEq, Repr

/-- Modelled from the spec: per-expression check of the analyzer's walk.
A platform call must be awaited unless inside a try/catch block; a `retryOn`
option must co-occur with `retries`; a model identifier must be declared. -/
def exprOk (models : List String) (inTry : Bool) : PExpr → Bool
  | .platformCall awaited opts =>
      (awaited || inTry) &&
        (match opts with
         | some o => !o.hasRetryOn || o.hasRetries
         | none => true)
  | .modelUse n => models.contains n
  | .plain => true

/-- Modelled from the spec: the analyzer's statement walk with its scope
context (spec sections 4.3 and 9: a scope-kind stack of
handler-top-level vs nested, plus the try/catch guard). -/
def stmtOk (kind : OpKind) (models : List String) (inTry nested : Bool) : Stmt → Bool
  | .skip => true
  | .seq s1 s2 => stmtOk kind models inTry nested s1 && stmtOk kind models inTry nested s2
  | .exprStmt e => exprOk models inTry e
  | .tryCatch b h => stmtOk kind models true nested b && stmtOk kind models true nested h
  | .ret none => true
  | .ret (some e) => (nested || kind == OpKind.action) && exprOk models inTry e
  | .nestedFn b => stmtOk kind models inTry true b

/-- Modelled from the spec: `callsAreUsedCorrectly(sourceFile, kind,
expectedModelNames)` returns true iff no usage-contract violation is found
anywhere in the handler body, nested scopes included (spec section 4.3). -/
def callsAreUsedCorrectly (kind : OpKind) (models : List String) (handlerBody : Stmt) : Bool :=
  stmtOk kind models false false handlerBody

/-! Independent single-rule checkers, used to state the claims about the
analyzer.  Each one walks the same tree but checks exactly one rule. -/

/-- Await side of a single expression: a platform call is fine if awaited
or inside a try/catch block. -/
def exprAwaitOk (inTry : Bool) : PExpr → Bool
  | .platformCall awaited _ => awaited || inTry
  | .modelUse _ => true
  | .plain => true

/-- The must-await rule alone (spec section 4.3, first bullet). -/
def awaitRuleOk (inTry : Bool) : Stmt → Bool
  | .skip => true
  | .seq s1 s2 => awaitRuleOk inTry s1 && awaitRuleOk inTry s2
  | .exprStmt e => exprAwaitOk inTry e
  | .tryCatch b h => awaitRuleOk true b && awaitRuleOk true h
  | .ret none => true
  | .ret (some e) => exprAwaitOk inTry e
  | .nestedFn b => awaitRuleOk inTry b

/-- Retry side of a single expression: `retryOn` needs `retries`. -/
def exprRetryOk : PExpr → Bool
  | .platformCall _ (some o) => !o.hasRetryOn || o.hasRetries
  | .platformCall _ none => true
  | .modelUse _ => true
  | .plain => true

/-- The `retryOn`/`retries` co-occurrence rule alone (spec section 4.3). -/
def retryRuleOk : Stmt → Bool
  | .skip => true
  | .seq s1 s2 => retryRuleOk s1 && retryRuleOk s2
  | .exprStmt e => exprRetryOk e
  | .tryCatch b h => retryRuleOk b && retryRuleOk h
  | .ret none => true
  | .ret (some e) => exprRetryOk e
  | .nestedFn b => retryRuleOk b

/-- Model side of a single expression: referenced identifiers must be
declared model names. -/
def exprModelOk (models : List String) : PExpr → Bool
  | .platformCall _ _ => true
  | .modelUse n => models.contains n
  | .plain => true

/-- The expected-model-names rule alone (spec section 4.3). -/
def modelRuleOk (models : List String) : Stmt → Bool
  | .skip => true
  | .seq s1 s2 => modelRuleOk models s1 && modelRuleOk models s2
  | .exprStmt e => exprModelOk models e
  | .tryCatch b h => modelRuleOk models b && modelRuleOk models h
  | .ret none => true
  | .ret (some e) => exprModelOk models e
  | .nestedFn b => modelRuleOk models b

/-- The return rule alone: for a Sync, a `return` with a non-empty
expression at handler level is a violation; bare returns and returns inside
nested functions are permitted; Actions may return (spec section 4.3). -/
def returnRuleOk (kind : OpKind) (nested : Bool) : Stmt → Bool
  | .skip => true
  | .seq s1 s2 => returnRuleOk kind nested s1 && returnRuleOk kind nested s2
  | .exprStmt _ => true
  | .tryCatch b h => returnRuleOk kind nested b && returnRuleOk kind nested h
  | .ret none => true
  | .ret (some _) => nested || kind == OpKind.action
  | .nestedFn b => returnRuleOk kind true b

/-- A handler-level `return` with a non-empty expression exists (returns
inside nested functions do not count as handler-level). -/
def hasHandlerReturnExpr : Stmt → Bool
  | .skip => false
  | .seq s1 s2 => hasHandlerReturnExpr s1 || hasHandlerReturnExpr s2
  | .exprStmt _ => false
  | .tryCatch b h => hasHandlerReturnExpr b || hasHandlerReturnExpr h
  | .ret none => false
  | .ret (some _) => true
  | .nestedFn _ => false

lemma exprOk_split (models : List String) (inTry : Bool) (e : PExpr) :
    exprOk models inTry e = (exprAwaitOk inTry e && exprRetryOk e && exprModelOk models e) := by
  cases e with
  | platformCall awaited opts =>
    cases opts with
    | none => simp [exprOk, exprAwaitOk, exprRetryOk, exprModelOk]
    | some o => simp [exprOk, exprAwaitOk, exprRetryOk, exprModelOk]
  | modelUse n => simp [exprOk, exprAwaitOk, exprRetryOk, exprModelOk]
  | plain => simp [exprOk, exprAwaitOk, exprRetryOk, exprModelOk]

lemma stmtOk_split (kind : OpKind) (models : List String) :
    ∀ (s : Stmt) (inTry nested : Bool),
      stmtOk kind models inTry nested s =
        (returnRuleOk kind nested s && awaitRuleOk inTry s && retryRuleOk s &&
          modelRuleOk models s) := by
  intro s
  induction s with
  | skip =>
    intro inTry nested
    simp [stmtOk, returnRuleOk, awaitRuleOk, retryRuleOk, modelRuleOk]
  | seq s1 s2 ih1 ih2 =>
    intro inTry nested
    simp only [stmtOk, returnRuleOk, awaitRuleOk, retryRuleOk, modelRuleOk, ih1, ih2]
    simp [Bool.and_assoc, Bool.and_left_comm, Bool.and_comm]
  | exprStmt e =>
    intro inTry nested
    simp [stmtOk, returnRuleOk, awaitRuleOk, retryRuleOk, modelRuleOk, exprOk_split]
  | tryCatch b h ihb ihh =>
    intro inTry nested
    simp only [stmtOk, returnRuleOk, awaitRuleOk, retryRuleOk, modelRuleOk, ihb, ihh]
    simp [Bool.and_assoc, Bool.and_left_comm, Bool.and_comm]
  | ret e =>
    intro inTry nested
    cases e with
    | none => simp [stmtOk, returnRuleOk, awaitRuleOk, retryRuleOk, modelRuleOk]
    | some e =>
      simp only [stmtOk, returnRuleOk, awaitRuleOk, retryRuleOk, modelRuleOk, exprOk_split]
      simp [Bool.and_assoc]
  | nestedFn b ih =>
    intro inTry nested
    simp [stmtOk, returnRuleOk, awaitRuleOk, retryRuleOk, modelRuleOk, ih]

lemma callsAreUsedCorrectly_split (kind : OpKind) (models : List String) (s : Stmt) :
    callsAreUsedCorrectly kind models s =
      (returnRuleOk kind false s && awaitRuleOk false s && retryRuleOk s &&
        modelRuleOk models s) :=
  stmtOk_split kind models s false false

lemma returnRuleOk_nested (kind : OpKind) : ∀ s : Stmt, returnRuleOk kind true s = true := by
  intro s
  induction s with
  | skip => rfl
  | seq s1 s2 ih1 ih2 => simp [returnRuleOk, ih1, ih2]
  | exprStmt e => rfl
  | tryCatch b h ihb ihh => simp [returnRuleOk, ihb, ihh]
  | ret e => cases e <;> simp [returnRuleOk]
  | nestedFn b ih => simpa [returnRuleOk] using ih

lemma returnRuleOk_sync_eq (s : Stmt) :
    returnRuleOk OpKind.sync false s = !hasHandlerReturnExpr s := by
  induction s with
  | skip => rfl
  | seq s1 s2 ih1 ih2 => simp [returnRuleOk, hasHandlerReturnExpr, ih1, ih2]
  | exprStmt e => rfl
  | tryCatch b h ihb ihh => simp [returnRuleOk, hasHandlerReturnExpr, ihb, ihh]
  | ret e => cases e <;> simp [returnRuleOk, hasHandlerReturnExpr]
  | nestedFn b ih => simp [returnRuleOk, hasHandlerReturnExpr, returnRuleOk_nested]

/-! Concrete handler bodies mirroring the test fixtures of
`sync.unit.cli-test.ts` (the fixture sources themselves are absent from
`src/`; each is reconstructed from its fixture name and the spec's
description of the scenario it exercises). -/

/-- Fixture `sync.ts`: an unawaited platform call wrapped in a try/catch
block, followed by an awaited one. -/
def syncTryCatchFile : Stmt :=
  .seq (.tryCatch (.exprStmt (.platformCall false none)) .skip)
    (.exprStmt (.platformCall true none))

/-- Fixture `return-sync.ts`: a Sync handler ending in a handler-level
`return` of a value. -/
def returnSyncFile : Stmt :=
  .seq (.exprStmt (.platformCall true none)) (.ret (some .plain))

/-- Fixture `void-return-sync.ts`: a Sync handler with only a bare
`return;`. -/
def voidReturnSyncFile : Stmt :=
  .seq (.exprStmt (.platformCall true none)) (.ret none)

/-- Fixture `nested-return-sync.ts`: the only `return <expr>` sits inside a
function nested within the handler. -/
def nestedReturnSyncFile : Stmt :=
  .seq (.nestedFn (.ret (some .plain))) (.exprStmt (.platformCall true none))

/-- Fixture `failing-sync.ts`: an unawaited platform call that is not
wrapped in any try/catch block. -/
def failingSyncFile : Stmt :=
  .exprStmt (.platformCall false none)

/-- Fixture `bad-model.ts`: an awaited platform call plus a reference to the
model identifier `SomeBadModel`. -/
def badModelFile : Stmt :=
  .seq (.exprStmt (.platformCall true none)) (.exprStmt (.modelUse "SomeBadModel"))

/-- Fixture `no-async-return.ts`: an Action handler returning the value of
an awaited platform call. -/
def noAsyncReturnFile : Stmt :=
  .ret (some (.platformCall true none))

/-- Fixture `retry-on-bad.ts`: an awaited platform call whose option object
has `retryOn` but no `retries`. -/
def retryOnBadFile : Stmt :=
  .exprStmt (.platformCall true (some ⟨true, false⟩))

/-- Fixture `retry-on-good.ts`: an awaited platform call whose option object
has `retryOn` together with `retries`. -/
def retryOnGoodFile : Stmt :=
  .exprStmt (.platformCall true (some ⟨true, true⟩))

/-- C4: for a Sync, a handler-level `return <expr>` makes
`callsAreUsedCorrectly` return false; when every handler-level return is
bare (returns inside nested functions do not count) and the remaining rules
are satisfied, it returns true. -/
theorem sync_return_rule (models : List String) (s : Stmt) :
    (hasHandlerReturnExpr s = true →
      callsAreUsedCorrectly OpKind.sync models s = false) ∧
    (hasHandlerReturnExpr s = false → awaitRuleOk false s = true → retryRuleOk s = true →
      modelRuleOk models s = true →
      callsAreUsedCorrectly OpKind.sync models s = true) := by
  constructor
  · intro h
    rw [callsAreUsedCorrectly_split, returnRuleOk_sync_eq, h]
    simp
  · intro h ha hr hm
    rw [callsAreUsedCorrectly_split, returnRuleOk_sync_eq, h, ha, hr, hm]
    simp

/-- C4 witness: the return-sync fixture fails, the void-return fixture
passes, and the nested-return fixture passes. -/
theorem sync_return_rule_witness :
    hasHandlerReturnExpr returnSyncFile = true ∧
    callsAreUsedCorrectly OpKind.sync ["GithubIssue"] returnSyncFile = false ∧
    hasHandlerReturnExpr voidReturnSyncFile = false ∧
    callsAreUsedCorrectly OpKind.sync ["GithubIssue"] voidReturnSyncFile = true ∧
    hasHandlerReturnExpr nestedReturnSyncFile = false ∧
    callsAreUsedCorrectly OpKind.sync ["GreenhouseEeoc"] nestedReturnSyncFile = true :=
  ⟨by decide, (sync_return_rule ["GithubIssue"] returnSyncFile).1 (by decide), by decide,
    (sync_return_rule ["GithubIssue"] voidReturnSyncFile).2 (by decide) (by decide) (by decide)
      (by decide), by decide,
    (sync_return_rule ["GreenhouseEeoc"] nestedReturnSyncFile).2 (by decide) (by decide)
      (by decide) (by decide)⟩

/-- C5: with the return, retry and model rules satisfied, the analyzer
returns false exactly when some platform call is neither awaited nor inside
a try/catch block. -/
theorem await_rule (kind : OpKind) (models : List String) (s : Stmt)
    (hret : returnRuleOk kind false s = true) (hretry : retryRuleOk s = true)
    (hmodel : modelRuleOk models s = true) :
    callsAreUsedCorrectly kind models s = false ↔ awaitRuleOk false s = false := by
  rw [callsAreUsedCorrectly_split, hret, hretry, hmodel]
  simp

/-- C5 witness: the try/catch fixture passes, the unguarded unawaited
fixture fails, and the action returning an awaited call passes. -/
theorem await_rule_witness :
    callsAreUsedCorrectly OpKind.sync ["GithubIssue"] syncTryCatchFile = true ∧
    callsAreUsedCorrectly OpKind.sync ["GithubIssue"] failingSyncFile = false ∧
    callsAreUsedCorrectly OpKind.action ["SomeModel"] noAsyncReturnFile = true := by
  refine ⟨?_, ?_, ?_⟩
  · have h := await_rule OpKind.sync ["GithubIssue"] syncTryCatchFile (by decide) (by decide)
      (by decide)
    cases hb : callsAreUsedCorrectly OpKind.sync ["GithubIssue"] syncTryCatchFile
    · exact absurd (h.mp hb) (by decide)
    · rfl
  · exact (await_rule OpKind.sync ["GithubIssue"] failingSyncFile (by decide) (by decide)
      (by decide)).mpr (by decide)
  · have h := await_rule OpKind.action ["SomeModel"] noAsyncReturnFile (by decide) (by decide)
      (by decide)
    cases hb : callsAreUsedCorrectly OpKind.action ["SomeModel"] noAsyncReturnFile
    · exact absurd (h.mp hb) (by decide)
    · rfl

/-- C9: with the return, retry and await rules satisfied, the analyzer
returns true exactly when every model identifier referenced in the file is
among the expected model names. -/
theorem model_rule (kind : OpKind) (models : List String) (s : Stmt)
    (hret : returnRuleOk kind false s = true) (hretry : retryRuleOk s = true)
    (hawait : awaitRuleOk false s = true) :
    callsAreUsedCorrectly kind models s = true ↔ modelRuleOk models s = true := by
  rw [callsAreUsedCorrectly_split, hret, hretry, hawait]
  simp

/-- C9 witness: the bad-model fixture passes under a model list containing
its referenced model and fails under a list that omits it. -/
theorem model_rule_witness :
    callsAreUsedCorrectly OpKind.sync ["SomeBadModel"] badModelFile = true ∧
    callsAreUsedCorrectly OpKind.sync ["GithubIssue"] badModelFile = false := by
  constructor
  · exact (model_rule OpKind.sync ["SomeBadModel"] badModelFile (by decide) (by decide)
      (by decide)).mpr (by decide)
  · have h := model_rule OpKind.sync ["GithubIssue"] badModelFile (by decide) (by decide)
      (by decide)
    cases hb : callsAreUsedCorrectly OpKind.sync ["GithubIssue"] badModelFile
    · rfl
    · exact absurd (h.mp hb) (by decide)

/-- C3: on the spec-modelled analyzer (spec section 4.3), `retryOn` without
`retries` is a violation and `retryOn` together with `retries` is accepted;
the repository's own test at `sync.unit.cli-test.ts:415-418`, although named
"should not complain if retryOn is used with retries", asserts false for the
good fixture, contradicting its own name and the spec's rule. -/
theorem retryOn_rule_spec_model :
    callsAreUsedCorrectly OpKind.sync ["GithubIssue"] retryOnBadFile = false ∧
    callsAreUsedCorrectly OpKind.sync ["GithubIssue"] retryOnGoodFile = true := by
  decide

/-! ## Schema Loader (spec sections 3 and 4.1; `config.service.ts` is absent
from `src/`) -/

/-- Modelled from the spec: the `models` block of a schema document, a
mapping model-name to an order-preserving field-name to raw-type-expression
mapping (spec sections 3 and 6). -/
abbrev Models := List (String × List (String × String))

/-- Modelled from the spec: a dialect-1 operation, keyed directly under the
integration: `runs`, `returns`, and an implicit `type: sync` when the `type`
key is absent (spec section 4.1). A bare-string `returns` is normalised to
a singleton list. -/
structure V1Op where
  typ : Option String
  runs : Option String
  returns : List String
deriving DecidableEq, Repr

/-- Modelled from the spec: a dialect-2 operation, grouped under the
`syncs:`/`actions:` keys (which fix its kind), with explicit `endpoint`,
`input`/`output` and optional webhook subscriptions (spec section 4.1). -/
structure V2Op where
  kind : OpKind
  runs : Option String
  endpoint : Option String
  input : Option String
  output : List String
  webhookSubscriptions : List String
deriving DecidableEq, Repr

/-- Modelled from the spec: a schema document, dialect detected by shape
(spec sections 4.1 and 6): dialect 1 keys operations directly under each
integration, dialect 2 groups them under `syncs:`/`actions:`. -/
inductive SchemaDoc where
  | v1 (integrations : List (String × List (String × V1Op))) (models : Models)
  | v2 (integrations : List (String × List (String × V2Op))) (models : Models)
deriving DecidableEq, Repr

/-- Modelled from the spec: the dialect-agnostic operation IR
(spec section 3, `OperationConfig`). -/
structure OperationConfig where
  name : String
  kind : OpKind
  schedule : Option String
  endpoint : Option String
  input : Option String
  output : List String
  webhookSubscriptions : List String
deriving DecidableEq, Repr

/-- Modelled from the spec: the loaded IR, one operation list per
integration identifier (spec section 3, `IntegrationConfig`). -/
abbrev IntegrationConfig := List (String × List OperationConfig)

/-- Modelled from the spec: the loader's error value; its message is
intentionally generic (spec section 4.1). -/
structure ValidationError where
  message : String
deriving DecidableEq, Repr

/-- The single coarse-grained schema-validation message (spec section 4.1). -/
def validationMessage : String := "Problem validating the nango.yaml file."

/-- Modelled from the spec: the structural rules of the dialect-2 grammar --
a structured sync/action must carry an `endpoint`, and webhook subscriptions
are forbidden on an Action (spec sections 3 and 4.1; fixtures `invalid.1`
and `invalid.2`). -/
def v2OpStructurallyValid (op : V2Op) : Bool :=
  op.endpoint.isSome && (op.kind == OpKind.sync || op.webhookSubscriptions.isEmpty)

/-- Modelled from the spec: per-integration validation walk over the
structured operations, stopping at the first violation. -/
def validateV2Ops : List (String × V2Op) → Except ValidationError Unit
  | [] => .ok ()
  | (_, op) :: rest =>
    if v2OpStructurallyValid op then validateV2Ops rest
    else .error ⟨validationMessage⟩

/-- Modelled from the spec: validation of every integration of a dialect-2
document. -/
def validateV2Integrations : List (String × List (String × V2Op)) → Except ValidationError Unit
  | [] => .ok ()
  | (_, ops) :: rest =>
    match validateV2Ops ops with
    | .ok () => validateV2Integrations rest
    | .error e => .error e

/-- A whole document satisfies the structural rules (dialect 1 has no
structural rules among those the loader checks). -/
def docValid : SchemaDoc → Bool
  | .v1 _ _ => true
  | .v2 ints _ => ints.all (fun p => p.2.all (fun q => v2OpStructurallyValid q.2))

/-- Modelled from the spec: normalisation of a dialect-1 operation into the
IR -- `type` defaults to sync, `runs` becomes the schedule, `returns` the
output (spec section 4.1). -/
def normalizeV1Op (name : String) (op : V1Op) : OperationConfig :=
  { name := name
    kind := if op.typ == some "action" then OpKind.action else OpKind.sync
    schedule := op.runs
    endpoint := none
    input := none
    output := op.returns
    webhookSubscriptions := [] }

/-- Modelled from the spec: normalisation of a dialect-2 operation into the
IR (spec section 4.1). -/
def normalizeV2Op (name : String) (op : V2Op) : OperationConfig :=
  { name := name
    kind := op.kind
    schedule := op.runs
    endpoint := op.endpoint
    input := op.input
    output := op.output
    webhookSubscriptions := op.webhookSubscriptions }

/-- The loader's result shape: `{ config, error }`, never both non-null
(spec section 4.1). -/
structure LoadResult where
  response : Option IntegrationConfig
  error : Option ValidationError
deriving DecidableEq, Repr

/-- Modelled from the spec: `configService.load` -- detects the dialect by
shape, validates the structural rules, and on success normalises into the
version-agnostic IR; on any violation it returns a null config and the
generic validation error (spec section 4.1). -/
def load (doc : SchemaDoc) : LoadResult :=
  match doc with
  | .v1 ints _ =>
    ⟨some (ints.map (fun p => (p.1, p.2.map (fun q => normalizeV1Op q.1 q.2)))), none⟩
  | .v2 ints _ =>
    match validateV2Integrations ints with
    | .ok () => ⟨some (ints.map (fun p => (p.1, p.2.map (fun q => normalizeV2Op q.1 q.2)))), none⟩
    | .error e => ⟨none, some e⟩

lemma validateV2Ops_spec (ops : List (String × V2Op)) :
    (validateV2Ops ops = .ok () ↔ ops.all (fun q => v2OpStructurallyValid q.2) = true) ∧
    (validateV2Ops ops = .ok () ∨ validateV2Ops ops = .error ⟨validationMessage⟩) := by
  induction ops with
  | nil => simp [validateV2Ops]
  | cons p rest ih =>
    obtain ⟨p1, p2⟩ := p
    by_cases h : v2OpStructurallyValid p2 = true
    · simpa [validateV2Ops, h] using ih
    · simp [validateV2Ops, h, Bool.not_eq_true] at ih ⊢

lemma validateV2Integrations_spec (ints : List (String × List (String × V2Op))) :
    (validateV2Integrations ints = .ok () ↔
      ints.all (fun p => p.2.all (fun q => v2OpStructurallyValid q.2)) = true) ∧
    (validateV2Integrations ints = .ok () ∨
      validateV2Integrations ints = .error ⟨validationMessage⟩) := by
  induction ints with
  | nil => simp [validateV2Integrations]
  | cons p rest ih =>
    obtain ⟨p1, ops⟩ := p
    rcases (validateV2Ops_spec ops).2 with h | h
    · have hall := (validateV2Ops_spec ops).1.mp h
      simpa [validateV2Integrations, h, hall] using ih
    · have hnot : ¬ ops.all (fun q => v2OpStructurallyValid q.2) = true := by
        intro hc
        have := (validateV2Ops_spec ops).1.mpr hc
        rw [this] at h
        exact absurd h (by simp)
      simp [validateV2Integrations, h, hnot]

/-- C1: `load` returns a non-null config and a null error on every valid
dialect-1 and dialect-2 document; on every document violating a structural
rule (missing endpoint on a structured dialect-2 sync/action, webhook
subscriptions on an Action) it returns a null config and the generic
validation error; it never returns both a config and an error. -/
theorem load_contract (doc : SchemaDoc) :
    (docValid doc = true → (load doc).response.isSome = true ∧ (load doc).error = none) ∧
    (docValid doc = false →
      (load doc).response = none ∧ (load doc).error = some ⟨validationMessage⟩) ∧
    ¬((load doc).response.isSome = true ∧ (load doc).error.isSome = true) := by
  cases doc with
  | v1 ints models =>
    refine ⟨fun _ => ⟨rfl, rfl⟩, fun h => absurd h (by simp [docValid]), ?_⟩
    rintro ⟨-, h⟩
    simp [load] at h
  | v2 ints models =>
    rcases (validateV2Integrations_spec ints).2 with h | h
    · have hall := (validateV2Integrations_spec ints).1.mp h
      refine ⟨fun _ => ⟨by simp [load, h], by simp [load, h]⟩, fun hv => ?_, ?_⟩
      · rw [docValid] at hv
        rw [hv] at hall
        exact absurd hall (by simp)
      · rintro ⟨-, hc⟩
        simp [load, h] at hc
    · have hnot : ¬ ints.all (fun p => p.2.all (fun q => v2OpStructurallyValid q.2)) = true := by
        intro hc
        have := (validateV2Integrations_spec ints).1.mpr hc
        rw [this] at h
        exact absurd h (by simp)
      refine ⟨fun hv => ?_, fun _ => ⟨by simp [load, h], by simp [load, h]⟩, ?_⟩
      · rw [docValid] at hv
        exact absurd hv hnot
      · rintro ⟨hc, -⟩
        simp [load, h] at hc

/-- A valid dialect-2 document mirroring the `v2/valid` fixture. -/
def validV2Doc : SchemaDoc :=
  .v2 [("demo-github-integration",
        [("single-model-return",
          { kind := OpKind.sync, runs := some "every half hour",
            endpoint := some "/issues", input := none,
            output := ["GithubIssue"], webhookSubscriptions := [] })])]
     [("GithubIssue", [("id", "integer"), ("owner", "string")])]

/-- A valid dialect-1 document mirroring the `v1/valid` fixture. -/
def validV1Doc : SchemaDoc :=
  .v1 [("demo-github-integration",
        [("single-model-return",
          { typ := some "sync", runs := some "every half hour",
            returns := ["GithubIssue"] })])]
     [("GithubIssue", [("id", "integer")])]

/-- An invalid dialect-2 document mirroring `v2/invalid.1`: a structured
sync with no endpoint. -/
def invalidV2MissingEndpoint : SchemaDoc :=
  .v2 [("demo-github-integration",
        [("single-model-return",
          { kind := OpKind.sync, runs := some "every half hour",
            endpoint := none, input := none,
            output := ["GithubIssue"], webhookSubscriptions := [] })])]
     [("GithubIssue", [("id", "integer")])]

/-- An invalid dialect-2 document mirroring `v2/invalid.2`: webhook
subscriptions on an action. -/
def invalidV2WebhookOnAction : SchemaDoc :=
  .v2 [("demo-github-integration",
        [("some-action",
          { kind := OpKind.action, runs := none,
            endpoint := some "POST /issues", input := none,
            output := ["GithubIssue"], webhookSubscriptions := ["issue.created"] })])]
     [("GithubIssue", [("id", "integer")])]

/-- C1 witness: the valid fixtures load with a config and no error; both
invalid fixtures load with no config and the generic message. -/
theorem load_contract_witness :
    docValid validV1Doc = true ∧ (load validV1Doc).response.isSome = true ∧
    (load validV1Doc).error = none ∧
    docValid validV2Doc = true ∧ (load validV2Doc).response.isSome = true ∧
    (load validV2Doc).error = none ∧
    docValid invalidV2MissingEndpoint = false ∧
    (load invalidV2MissingEndpoint).response = none ∧
    (load invalidV2MissingEndpoint).error = some ⟨validationMessage⟩ ∧
    docValid invalidV2WebhookOnAction = false ∧
    (load invalidV2WebhookOnAction).response = none ∧
    (load invalidV2WebhookOnAction).error = some ⟨validationMessage⟩ :=
  ⟨by decide, ((load_contract validV1Doc).1 (by decide)).1,
    ((load_contract validV1Doc).1 (by decide)).2, by decide,
    ((load_contract validV2Doc).1 (by decide)).1,
    ((load_contract validV2Doc).1 (by decide)).2, by decide,
    ((load_contract invalidV2MissingEndpoint).2.1 (by decide)).1,
    ((load_contract invalidV2MissingEndpoint).2.1 (by decide)).2, by decide,
    ((load_contract invalidV2WebhookOnAction).2.1 (by decide)).1,
    ((load_contract invalidV2WebhookOnAction).2.1 (by decide)).2⟩

/-! ## Type Expression Compiler (spec section 4.2; the model-generation code
of `cli.ts` is absent from `src/`) -/

/-- The single-quote character, used to delimit string-literal members. -/
def singleQuoteChar : Char := Char.ofNat 39

/-- Split a character list on a separator character. -/
def splitOnChar (c : Char) : List Char → List (List Char)
  | [] => [[]]
  | x :: xs =>
    let rest := splitOnChar c xs
    if x == c then [] :: rest
    else
      match rest with
      | r :: rs => (x :: r) :: rs
      | [] => [[x]]

/-- Strip leading and trailing spaces of a token. -/
def trimChars (l : List Char) : List Char :=
  ((l.dropWhile (fun c => c == ' ')).reverse.dropWhile (fun c => c == ' ')).reverse

/-- Modelled from the spec: the structured type of one union member
(spec section 3, `TypeRef`); a field's full type is an order-preserving
list of such members, so nested unions never arise. -/
inductive TypeRef where
  | prim (name : String)
  | modelRef (name : String)
  | strLit (value : String)
  | arrayOf (t : TypeRef)
  | recordOf (k v : String)
deriving DecidableEq, Repr

/-- Count the trailing `[]` wrappers of a reversed token, returning the
wrapper count together with the reversed base token. -/
def countArraySuffix : List Char → Nat × List Char
  | ']' :: '[' :: rest => let p := countArraySuffix rest; (p.1 + 1, p.2)
  | l => (0, l)

/-- Apply `n` array wrappers around a base type. -/
def wrapArray : Nat → TypeRef → TypeRef
  | 0, t => t
  | n + 1, t => TypeRef.arrayOf (wrapArray n t)

/-- Modelled from the spec: the closed primitive-name mapping, `integer` to
`number` and `date` to `Date` (spec section 4.2). -/
def mapPrimName (s : String) : String :=
  if s == "integer" then "number"
  else if s == "date" then "Date"
  else s

/-- The token is a quoted string literal. -/
def isQuotedLit (l : List Char) : Bool :=
  decide (2 ≤ l.length) && l.head? == some singleQuoteChar &&
    l.getLast? == some singleQuoteChar

/-- The token has the `Record<...>` shape. -/
def isRecordTok (l : List Char) : Bool :=
  l.take 7 == "Record<".data && l.getLast? == some '>'

/-- Split the interior of a `Record<K, V>` token on its comma. -/
def recordParts (l : List Char) : List (List Char) :=
  (splitOnChar ',' ((l.drop 7).dropLast)).map trimChars

/-- Modelled from the spec: compile the base of a union member once its
array wrappers are stripped -- quoted literal, `Record<K,V>`, known model
name, or primitive (spec section 4.2). -/
def compileBase (models : List String) (l : List Char) : TypeRef :=
  if isQuotedLit l then TypeRef.strLit (String.mk ((l.drop 1).dropLast))
  else if isRecordTok l then
    match recordParts l with
    | [k, v] => TypeRef.recordOf (mapPrimName (String.mk k)) (mapPrimName (String.mk v))
    | _ => TypeRef.prim (String.mk l)
  else
    let s := String.mk l
    if models.contains s then TypeRef.modelRef s
    else TypeRef.prim (mapPrimName s)

/-- Modelled from the spec: compile one trimmed union member, recognising
trailing `[]` wrappers as `ArrayOf` (spec section 4.2). -/
def compileMember (models : List String) (l : List Char) : TypeRef :=
  let p := countArraySuffix l.reverse
  wrapArray p.1 (compileBase models p.2.reverse)

/-- Modelled from the spec: `compileField` tokenizes a raw field expression
on the top-level union separator and compiles each member in source order
(spec section 4.2). -/
def compileField (models : List String) (raw : String) : List TypeRef :=
  ((splitOnChar '|' raw.data).map trimChars).map (compileMember models)

/-- Render one structured member back to declaration text. -/
def renderTypeRef : TypeRef → String
  | .prim n => n
  | .modelRef n => n
  | .strLit v => "'" ++ v ++ "'"
  | .arrayOf t => renderTypeRef t ++ "[]"
  | .recordOf k v => "Record<" ++ k ++ ", " ++ v ++ ">"

/-- Render an ordered member list, separating members with the union bar;
member order is preserved from source order. -/
def renderMembers : List TypeRef → String
  | [] => ""
  | [t] => renderTypeRef t
  | t :: ts => renderTypeRef t ++ " | " ++ renderMembers ts

/-- Modelled from the spec: the rendered declaration type of a raw field
expression (spec section 4.2, `renderModel`). -/
def renderField (models : List String) (raw : String) : String :=
  renderMembers (compileField models raw)

/-- C7: rendering preserves the source order of union members and composes
nested wrappers -- `'male' | 'female'` renders as that literal union,
`'male' | null` keeps the null member, and a field referencing `Other[]`
renders the array-of-model type `Other[]`, never the quoted literal
`'Other[]'`. -/
theorem union_rendering_contract :
    renderField ["Other"] "'male' | 'female'" = "'male' | 'female'" ∧
    renderField ["Other"] "'male' | null" = "'male' | null" ∧
    compileField ["Other"] "Other[]" = [TypeRef.arrayOf (TypeRef.modelRef "Other")] ∧
    renderField ["Other"] "Other[]" = "Other[]" ∧
    renderField ["Other"] "Other[] | null | undefined" = "Other[] | null | undefined" ∧
    renderField ["Other"] "Other[] | null | undefined" ≠ "'Other[]' | null | undefined" := by
  refine ⟨by decide, by decide, by decide, by decide, by decide, by decide⟩

/-! ## Model generation checks (the `generate` pipeline of `cli.ts`, absent
from `src/`; spec sections 4.1, 4.2, 7, 8) -/

/-- Modelled from the spec: the two fine-grained generation errors the
claims exercise -- `FieldExpressionError` (trailing punctuation) and
`ModelInvariantError` (missing `id` on a Sync output model)
(spec section 7). -/
inductive GenError where
  | fieldPunctuation (rawExpression modelName : String)
  | missingId (modelName : String)
deriving DecidableEq, Repr

/-- Render a generation error to its user-visible message (spec sections
4.1 and 4.2 give the exact wordings). -/
def GenError.message : GenError → String
  | .fieldPunctuation raw m =>
    "Field \"" ++ raw ++ "\" in the model " ++ m ++
      " ends with a comma or semicolon which is not allowed."
  | .missingId m =>
    "Model \"" ++ m ++
      "\" doesn't have an id field. This is required to be able to uniquely identify the data record."

/-- The raw expression ends with a stray comma or semicolon. -/
def endsWithCommaOrSemicolon (s : String) : Bool :=
  match s.data.getLast? with
  | some c => c == ',' || c == ';'
  | none => false

/-- First field of a model whose raw expression ends in stray punctuation,
as `(rawExpression, modelName)`. -/
def firstPunctInFields (modelName : String) : List (String × String) → Option (String × String)
  | [] => none
  | f :: rest =>
    if endsWithCommaOrSemicolon f.2 then some (f.2, modelName)
    else firstPunctInFields modelName rest

/-- First offending `(rawExpression, modelName)` pair across all models. -/
def firstPunctViolation : Models → Option (String × String)
  | [] => none
  | m :: rest =>
    match firstPunctInFields m.1 m.2 with
    | some v => some v
    | none => firstPunctViolation rest

/-- Modelled from the spec: the field-expression check, walking each model's
fields in order and failing on the first raw expression with trailing
punctuation (spec section 4.2). -/
def checkFields (modelName : String) : List (String × String) → Except GenError Unit
  | [] => .ok ()
  | f :: rest =>
    if endsWithCommaOrSemicolon f.2 then .error (.fieldPunctuation f.2 modelName)
    else checkFields modelName rest

/-- Modelled from the spec: the field-expression check over every model. -/
def checkModels : Models → Except GenError Unit
  | [] => .ok ()
  | m :: rest =>
    match checkFields m.1 m.2 with
    | .ok () => checkModels rest
    | .error e => .error e

/-- Some field of some model ends in a stray comma or semicolon. -/
def modelsHavePunct (models : Models) : Bool :=
  models.any (fun m => m.2.any (fun f => endsWithCommaOrSemicolon f.2))

/-- Drop the final character of a raw expression. -/
def stripTrailingChar (s : String) : String := String.mk s.data.dropLast

/-- Remove the trailing punctuation character from every offending field. -/
def stripPunct (models : Models) : Models :=
  models.map (fun m => (m.1, m.2.map (fun f =>
    (f.1, if endsWithCommaOrSemicolon f.2 then stripTrailingChar f.2 else f.2))))

lemma checkFields_eq (modelName : String) (fields : List (String × String)) :
    checkFields modelName fields =
      match firstPunctInFields modelName fields with
      | some v => .error (.fieldPunctuation v.1 v.2)
      | none => .ok () := by
  induction fields with
  | nil => rfl
  | cons f rest ih =>
    by_cases h : endsWithCommaOrSemicolon f.2 = true
    · simp [checkFields, firstPunctInFields, h]
    · simp [checkFields, firstPunctInFields, h, ih]

lemma checkModels_eq (models : Models) :
    checkModels models =
      match firstPunctViolation models with
      | some v => .error (.fieldPunctuation v.1 v.2)
      | none => .ok () := by
  induction models with
  | nil => rfl
  | cons m rest ih =>
    rw [checkModels, checkFields_eq, firstPunctViolation]
    cases h : firstPunctInFields m.1 m.2 with
    | some v => rfl
    | none => simpa using ih

lemma firstPunctInFields_spec (modelName : String) (fields : List (String × String)) :
    (∀ v, firstPunctInFields modelName fields = some v →
      endsWithCommaOrSemicolon v.1 = true ∧ v.2 = modelName) ∧
    (firstPunctInFields modelName fields).isSome =
      fields.any (fun f => endsWithCommaOrSemicolon f.2) := by
  induction fields with
  | nil => simp [firstPunctInFields]
  | cons f rest ih =>
    by_cases h : endsWithCommaOrSemicolon f.2 = true
    · refine ⟨fun v hv => ?_, by simp [firstPunctInFields, h]⟩
      rw [firstPunctInFields, if_pos h] at hv
      cases hv
      exact ⟨h, rfl⟩
    · constructor
      · intro v hv
        rw [firstPunctInFields, if_neg h] at hv
        exact ih.1 v hv
      · simp only [firstPunctInFields, if_neg h, List.any_cons]
        rw [ih.2]
        simp [Bool.not_eq_true] at h
        simp [h]

lemma firstPunctViolation_spec (models : Models) :
    (∀ v, firstPunctViolation models = some v → endsWithCommaOrSemicolon v.1 = true) ∧
    (firstPunctViolation models).isSome = modelsHavePunct models := by
  induction models with
  | nil => simp [firstPunctViolation, modelsHavePunct]
  | cons m rest ih =>
    cases h : firstPunctInFields m.1 m.2 with
    | some v =>
      have hv := (firstPunctInFields_spec m.1 m.2).1 v h
      have hs : (firstPunctInFields m.1 m.2).isSome = true := by simp [h]
      rw [(firstPunctInFields_spec m.1 m.2).2] at hs
      constructor
      · intro w hw
        rw [firstPunctViolation, h] at hw
        cases hw
        exact hv.1
      · simp [firstPunctViolation, h, modelsHavePunct, hs]
    | none =>
      have hs : (firstPunctInFields m.1 m.2).isSome = false := by simp [h]
      rw [(firstPunctInFields_spec m.1 m.2).2] at hs
      constructor
      · intro w hw
        rw [firstPunctViolation, h] at hw
        exact ih.1 w hw
      · simp only [firstPunctViolation, h, modelsHavePunct, List.any_cons]
        rw [ih.2, modelsHavePunct]
        simp [hs]

/-- The model's field list contains a field named `id`. -/
def modelHasId (fields : List (String × String)) : Bool :=
  fields.any (fun f => f.1 == "id")

/-- Look up a declared model by name. -/
def lookupModel : Models → String → Option (List (String × String))
  | [], _ => none
  | m :: rest, name => if m.1 == name then some m.2 else lookupModel rest name

/-- The named output resolves to a declared model that lacks an `id` field;
outputs that are not declared models carry no id requirement. -/
def outputMissingId (models : Models) (o : String) : Bool :=
  match lookupModel models o with
  | some fields => !modelHasId fields
  | none => false

/-- First output of an operation that violates the id invariant. -/
def firstMissingIdOutput (models : Models) : List String → Option String
  | [] => none
  | o :: rest =>
    if outputMissingId models o then some o else firstMissingIdOutput models rest

/-- Modelled from the spec: cross-check of each model referenced as a
Sync's output against the has-`id` invariant; Action outputs are not
checked (spec sections 3 and 4.1). -/
def checkSyncOutputs (models : Models) : List OperationConfig → Except GenError Unit
  | [] => .ok ()
  | op :: rest =>
    match (if op.kind == OpKind.sync then firstMissingIdOutput models op.output else none) with
    | some m => .error (.missingId m)
    | none => checkSyncOutputs models rest

/-- First id-invariant violation across the Sync operations. -/
def firstSyncIdViolation (models : Models) : List OperationConfig → Option String
  | [] => none
  | op :: rest =>
    match (if op.kind == OpKind.sync then firstMissingIdOutput models op.output else none) with
    | some m => some m
    | none => firstSyncIdViolation models rest

/-- Some declared model is the output of a Sync operation and lacks `id`. -/
def syncOutputMissingId (models : Models) (ops : List OperationConfig) : Bool :=
  ops.any (fun op => op.kind == OpKind.sync && op.output.any (outputMissingId models))

lemma checkSyncOutputs_eq (models : Models) (ops : List OperationConfig) :
    checkSyncOutputs models ops =
      match firstSyncIdViolation models ops with
      | some m => .error (.missingId m)
      | none => .ok () := by
  induction ops with
  | nil => rfl
  | cons op rest ih =>
    rw [checkSyncOutputs, firstSyncIdViolation]
    cases h : (if op.kind == OpKind.sync then firstMissingIdOutput models op.output else none) with
    | some m => rfl
    | none => simpa using ih

lemma firstMissingIdOutput_spec (models : Models) (outs : List String) :
    (∀ m, firstMissingIdOutput models outs = some m → outputMissingId models m = true) ∧
    (firstMissingIdOutput models outs).isSome = outs.any (outputMissingId models) := by
  induction outs with
  | nil => simp [firstMissingIdOutput]
  | cons o rest ih =>
    by_cases h : outputMissingId models o = true
    · refine ⟨fun m hm => ?_, by simp [firstMissingIdOutput, h]⟩
      rw [firstMissingIdOutput, if_pos h] at hm
      cases hm
      exact h
    · constructor
      · intro m hm
        rw [firstMissingIdOutput, if_neg h] at hm
        exact ih.1 m hm
      · simp only [firstMissingIdOutput, if_neg h, List.any_cons]
        rw [ih.2]
        simp [Bool.not_eq_true] at h
        simp [h]

lemma firstSyncIdViolation_spec (models : Models) (ops : List OperationConfig) :
    (∀ m, firstSyncIdViolation models ops = some m → outputMissingId models m = true) ∧
    (firstSyncIdViolation models ops).isSome = syncOutputMissingId models ops := by
  induction ops with
  | nil => simp [firstSyncIdViolation, syncOutputMissingId]
  | cons op rest ih =>
    by_cases hk : (op.kind == OpKind.sync) = true
    · cases h : firstMissingIdOutput models op.output with
      | some m =>
        have hm := (firstMissingIdOutput_spec models op.output).1 m h
        have hs : (firstMissingIdOutput models op.output).isSome = true := by simp [h]
        rw [(firstMissingIdOutput_spec models op.output).2] at hs
        constructor
        · intro w hw
          rw [firstSyncIdViolation, if_pos hk, h] at hw
          cases hw
          exact hm
        · simp [firstSyncIdViolation, hk, h, syncOutputMissingId, hs]
      | none =>
        have hs : (firstMissingIdOutput models op.output).isSome = false := by simp [h]
        rw [(firstMissingIdOutput_spec models op.output).2] at hs
        constructor
        · intro w hw
          rw [firstSyncIdViolation, if_pos hk, h] at hw
          exact ih.1 w hw
        · simp only [firstSyncIdViolation, if_pos hk, h, syncOutputMissingId, List.any_cons]
          rw [ih.2, syncOutputMissingId]
          simp [hs]
    · constructor
      · intro w hw
        rw [firstSyncIdViolation, if_neg hk] at hw
        exact ih.1 w hw
      · simp only [firstSyncIdViolation, if_neg hk, syncOutputMissingId, List.any_cons]
        rw [ih.2, syncOutputMissingId]
        simp [Bool.not_eq_true] at hk
        simp [hk]

lemma isSome_false_eq_none {α : Type} {a : Option α} (h : a.isSome = false) : a = none := by
  cases a with
  | none => rfl
  | some v => simp at h

/-- Render one model declaration. -/
def renderModelDecl (known : List String) (m : String × List (String × String)) : String :=
  "export interface " ++ m.1 ++ " \x7b\n" ++
    String.intercalate "\n"
      (m.2.map (fun f => "  " ++ f.1 ++ ": " ++ renderField known f.2 ++ ";")) ++
    "\n\x7d"

/-- Render every model declaration of a schema. -/
def renderModels (models : Models) : String :=
  String.intercalate "\n\n" (models.map (renderModelDecl (models.map Prod.fst)))

/-- Modelled from the spec: the `generate` pipeline over a loaded config --
field-expression check, Sync-output id invariant, then model code
generation (spec sections 4.1, 4.2, 7, 8). -/
def generate (ops : List OperationConfig) (models : Models) : Except GenError String :=
  match checkModels models with
  | .error e => .error e
  | .ok () =>
    match checkSyncOutputs models ops with
    | .error e => .error e
    | .ok () => .ok (renderModels models)

/-- C2: when the field expressions are clean, generation fails with the
exact missing-id message for a model that is a Sync's declared output and
lacks an `id` field, and succeeds (never failing for this reason) when no
Sync output model lacks `id` -- in particular when the id-less model is
used only as an Action's output. -/
theorem generate_sync_id_invariant (ops : List OperationConfig) (models : Models)
    (hm : checkModels models = .ok ()) :
    (∀ M, firstSyncIdViolation models ops = some M →
      outputMissingId models M = true ∧
      generate ops models = .error (.missingId M) ∧
      (GenError.missingId M).message =
        "Model \"" ++ M ++
          "\" doesn't have an id field. This is required to be able to uniquely identify the data record.") ∧
    (firstSyncIdViolation models ops = none →
      generate ops models = .ok (renderModels models)) ∧
    (firstSyncIdViolation models ops).isSome = syncOutputMissingId models ops := by
  refine ⟨fun M hM => ?_, fun hnone => ?_, (firstSyncIdViolation_spec models ops).2⟩
  · refine ⟨(firstSyncIdViolation_spec models ops).1 M hM, ?_, rfl⟩
    simp only [generate, hm, checkSyncOutputs_eq, hM]
  · simp only [generate, hm, checkSyncOutputs_eq, hnone]

/-- Operations of the missing-id fixture, Sync variant. -/
def opsSyncNoId : List OperationConfig :=
  [{ name := "single-model-return", kind := OpKind.sync,
     schedule := some "every half hour", endpoint := none, input := none,
     output := ["GithubIssue"], webhookSubscriptions := [] }]

/-- Operations of the missing-id fixture, Action variant. -/
def opsActionNoId : List OperationConfig :=
  [{ name := "single-model-return", kind := OpKind.action,
     schedule := none, endpoint := none, input := none,
     output := ["GithubIssue"], webhookSubscriptions := [] }]

/-- The id-less model of the missing-id fixtures. -/
def modelsNoId : Models :=
  [("GithubIssue", [("owner", "string"), ("repo", "string")])]

/-- C2 witness: the id-less model as a Sync output fails with the exact
message; the same model used only as an Action output generates fine. -/
theorem generate_sync_id_invariant_witness :
    checkModels modelsNoId = Except.ok () ∧
    generate opsSyncNoId modelsNoId = Except.error (GenError.missingId "GithubIssue") ∧
    (GenError.missingId "GithubIssue").message =
      "Model \"GithubIssue\" doesn't have an id field. This is required to be able to uniquely identify the data record." ∧
    syncOutputMissingId modelsNoId opsActionNoId = false ∧
    generate opsActionNoId modelsNoId = Except.ok (renderModels modelsNoId) :=
  ⟨rfl,
    ((generate_sync_id_invariant opsSyncNoId modelsNoId rfl).1 "GithubIssue" rfl).2.1,
    rfl, rfl,
    (generate_sync_id_invariant opsActionNoId modelsNoId rfl).2.1 rfl⟩

/-- C6: generation fails on the first field whose raw expression ends in a
comma or semicolon, with the exact message naming the offending field text
and its model; with the trailing punctuation stripped (and the id invariant
satisfied) generation succeeds. -/
theorem generate_trailing_punctuation (ops : List OperationConfig) (models : Models) :
    (∀ v, firstPunctViolation models = some v →
      endsWithCommaOrSemicolon v.1 = true ∧
      generate ops models = .error (.fieldPunctuation v.1 v.2) ∧
      (GenError.fieldPunctuation v.1 v.2).message =
        "Field \"" ++ v.1 ++ "\" in the model " ++ v.2 ++
          " ends with a comma or semicolon which is not allowed.") ∧
    (firstPunctViolation models).isSome = modelsHavePunct models ∧
    (modelsHavePunct (stripPunct models) = false →
      syncOutputMissingId (stripPunct models) ops = false →
      generate ops (stripPunct models) = .ok (renderModels (stripPunct models))) := by
  refine ⟨fun v hv => ?_, (firstPunctViolation_spec models).2, fun hp hid => ?_⟩
  · refine ⟨(firstPunctViolation_spec models).1 v hv, ?_, rfl⟩
    simp only [generate, checkModels_eq, hv]
  · have h1 : firstPunctViolation (stripPunct models) = none :=
      isSome_false_eq_none (by rw [(firstPunctViolation_spec (stripPunct models)).2, hp])
    have h2 : firstSyncIdViolation (stripPunct models) ops = none :=
      isSome_false_eq_none
        (by rw [(firstSyncIdViolation_spec (stripPunct models) ops).2, hid])
    simp only [generate, checkModels_eq, h1, checkSyncOutputs_eq, h2]

/-! ## Punctuation-fixture witness inputs -/

/-- The `v1/no-commas` fixture's models: the id field's type ends in a
comma. -/
def modelsComma : Models :=
  [("GithubIssue", [("id", "integer,"), ("owner", "string")])]

/-- The `v1/no-semi-colons` fixture's models: the id field's type ends in a
semicolon. -/
def modelsSemicolon : Models :=
  [("GithubIssue", [("id", "integer;"), ("owner", "string")])]

/-- C6 witness: both punctuation fixtures fail with the exact message, and
the comma fixture with the punctuation stripped generates successfully. -/
theorem generate_trailing_punctuation_witness :
    firstPunctViolation modelsComma = some ("integer,", "GithubIssue") ∧
    generate opsSyncNoId modelsComma =
      Except.error (GenError.fieldPunctuation "integer," "GithubIssue") ∧
    (GenError.fieldPunctuation "integer," "GithubIssue").message =
      "Field \"integer,\" in the model GithubIssue ends with a comma or semicolon which is not allowed." ∧
    generate opsSyncNoId modelsSemicolon =
      Except.error (GenError.fieldPunctuation "integer;" "GithubIssue") ∧
    (GenError.fieldPunctuation "integer;" "GithubIssue").message =
      "Field \"integer;\" in the model GithubIssue ends with a comma or semicolon which is not allowed." ∧
    stripPunct modelsComma = [("GithubIssue", [("id", "integer"), ("owner", "string")])] ∧
    generate opsSyncNoId (stripPunct modelsComma) =
      Except.ok (renderModels (stripPunct modelsComma)) :=
  ⟨rfl,
    ((generate_trailing_punctuation opsSyncNoId modelsComma).1 ("integer,", "GithubIssue")
      rfl).2.1,
    rfl,
    ((generate_trailing_punctuation opsSyncNoId modelsSemicolon).1 ("integer;", "GithubIssue")
      rfl).2.1,
    rfl, by decide,
    (generate_trailing_punctuation opsSyncNoId modelsComma).2.2 (by decide) (by decide)⟩

/-! ## Compile Orchestrator (spec section 4.4; `compile.service.ts` is
absent from `src/`) -/

/-- Modelled from the spec: a discovered source file as the orchestrator
sees it -- its name, the directory depth of its location inside its
integration's root, its relative imports (as path segment lists), and the
verdicts of the two per-file collaborator steps, the usage analysis and the
underlying language compile (spec section 4.4). -/
structure SourceFile where
  name : String
  dirDepth : Nat
  imports : List (List String)
  usageOk : Bool
  compilerOk : Bool
deriving DecidableEq, Repr

/-- Modelled from the spec: resolve a relative import from a directory at
the given depth inside the integration root; a `..` segment at depth zero
escapes the root (spec section 4.4). -/
def resolveWithin : Nat → List String → Bool
  | _, [] => true
  | d, seg :: rest =>
    if seg == ".." then
      match d with
      | 0 => false
      | d' + 1 => resolveWithin d' rest
    else if seg == "." then resolveWithin d rest
    else resolveWithin (d + 1) rest

/-- Every relative import of the file stays inside the integration root. -/
def importsContained (f : SourceFile) : Bool :=
  f.imports.all (resolveWithin f.dirDepth)

/-- Modelled from the spec: `compileSingleFile` -- a file whose imports
escape the integration root is rejected before the language compiler is
invoked; otherwise the file passes iff usage analysis and the language
compile both pass (spec section 4.4). -/
def compileSingleFile (f : SourceFile) : Bool :=
  if importsContained f then f.usageOk && f.compilerOk else false

/-- Modelled from the spec: the batch walk -- every discovered file is
attempted and receives a per-file result; a failing file does not abort the
batch (spec sections 3 and 4.4, `BatchCompileResult`). -/
def compileAllFiles : List SourceFile → List (String × Bool)
  | [] => []
  | f :: rest => (f.name, compileSingleFile f) :: compileAllFiles rest

/-- The aggregated batch result: the logical AND of all per-file results. -/
def batchSuccess (files : List SourceFile) : Bool :=
  (compileAllFiles files).all (fun r => r.2)

lemma compileAllFiles_append (l1 l2 : List SourceFile) :
    compileAllFiles (l1 ++ l2) = compileAllFiles l1 ++ compileAllFiles l2 := by
  induction l1 with
  | nil => rfl
  | cons f rest ih => simp [compileAllFiles, ih]

/-- C8: a file with a relative import that escapes the integration root
fails `compileSingleFile`, and the failure is scoped to that file alone:
in any batch containing it, every other file still gets exactly the result
it would get on its own. -/
theorem import_containment_scoped (f : SourceFile)
    (h : ∃ imp ∈ f.imports, resolveWithin f.dirDepth imp = false) :
    compileSingleFile f = false ∧
    ∀ pre post : List SourceFile,
      compileAllFiles (pre ++ f :: post) =
        compileAllFiles pre ++ (f.name, false) :: compileAllFiles post := by
  obtain ⟨imp, himp, hres⟩ := h
  have hcont : importsContained f = false := by
    rw [importsContained]
    rcases hall : f.imports.all (resolveWithin f.dirDepth) with - | -
    · rfl
    · rw [List.all_eq_true] at hall
      rw [hall imp himp] at hres
      exact absurd hres (by simp)
  have hsingle : compileSingleFile f = false := by
    rw [compileSingleFile, hcont]
    rfl
  refine ⟨hsingle, fun pre post => ?_⟩
  rw [compileAllFiles_append]
  simp [compileAllFiles, hsingle]

/-- The `relative-imports-with-higher-import` fixture's offending file:
`github/actions/gh-issues.ts` importing `../../welcomer`. -/
def ghIssuesFile : SourceFile :=
  { name := "gh-issues.ts", dirDepth := 1,
    imports := [["..", "..", "welcomer"]], usageOk := true, compilerOk := true }

/-- A sibling file with a contained import, compiled in the same batch. -/
def siblingFile : SourceFile :=
  { name := "welcomer.ts", dirDepth := 1,
    imports := [["..", "helpers"]], usageOk := true, compilerOk := true }

/-- C8 witness: the escaping file fails while the sibling in the same batch
still gets its own (passing) result. -/
theorem import_containment_scoped_witness :
    compileSingleFile ghIssuesFile = false ∧
    compileAllFiles [siblingFile, ghIssuesFile] =
      [("welcomer.ts", true), ("gh-issues.ts", false)] ∧
    compileSingleFile siblingFile = true := by
  have h := import_containment_scoped ghIssuesFile
    ⟨["..", "..", "welcomer"], by decide, by decide⟩
  refine ⟨h.1, ?_, by decide⟩
  have h2 := h.2 [siblingFile] []
  rw [show [siblingFile, ghIssuesFile] = [siblingFile] ++ ghIssuesFile :: [] from rfl, h2]
  decide

/-! ## Access middleware (embedded from `src/lib/access/index.ts`)

Environment variables are modelled as an explicit configuration record
(each entry `Option String`, `none` for an unset variable), the incoming
request by the two pieces of data the middleware reads, and the base64
decoding done by `Buffer.from(..., 'base64').toString('utf-8')` by an
abstract `decode` function passed in (an external collaborator). The query
value `req.query['pizzly_pkey']` is modelled as `Option String`, `none`
covering both a missing key and a non-string value (the `typeof` check). -/

/-- The process environment as the middleware reads it. -/
structure Env where
  authenticationUser : Option String
  authenticationPassword : Option String
  secretKeyConfig : Option String
  publishableKeyConfig : Option String
deriving DecidableEq, Repr

/-- The request data the middleware examines. -/
structure Request where
  authorization : Option String
  pizzlyPkey : Option String
deriving DecidableEq, Repr

/-- What a middleware invocation does with the request. -/
inductive MwOutcome where
  | callNext
  | respondUnauthorized
  | pizzlyError (code : String)
deriving DecidableEq, Repr

/-- JavaScript truthiness of a `string | undefined` value: an unset
variable and the empty string are both falsy. -/
def truthy : Option String → Bool
  | some s => !(s == "")
  | none => false

/-- `fromBasicAuth`: split the header on `Basic `, pop the last part,
base64-decode it, and split the result on `:` into user and password
(`index.ts` lines 104-114). -/
def fromBasicAuth (decode : String → String) (header : String) : String × String :=
  let basicAsBase64 := ((header.splitOn "Basic ").getLast?).getD ""
  let basicAsString := decode basicAsBase64
  let providedCredentials := basicAsString.splitOn ":"
  (providedCredentials.head?.getD "", (providedCredentials.drop 1).head?.getD "")

/-- `basic` middleware (`index.ts` lines 9-39): with both credential
variables falsy it calls `next()`; otherwise a missing (or empty)
authorization header, or credentials that do not match, get a 401. -/
def basic (env : Env) (decode : String → String) (req : Request) : MwOutcome :=
  if !truthy env.authenticationUser && !truthy env.authenticationPassword then
    MwOutcome.callNext
  else if !truthy req.authorization then
    MwOutcome.respondUnauthorized
  else
    let pair := fromBasicAuth decode (req.authorization.getD "")
    if !(env.authenticationUser == some pair.1 && env.authenticationPassword == some pair.2) then
      MwOutcome.respondUnauthorized
    else MwOutcome.callNext

/-- `secretKey` middleware (`index.ts` lines 45-66): with `SECRET_KEY`
falsy it calls `next()`; otherwise a missing header throws
`missing_secret_key` and a mismatched user throws `invalid_secret_key`. -/
def secretKey (env : Env) (decode : String → String) (req : Request) : MwOutcome :=
  if !truthy env.secretKeyConfig then
    MwOutcome.callNext
  else if !truthy req.authorization then
    MwOutcome.pizzlyError "missing_secret_key"
  else
    let pair := fromBasicAuth decode (req.authorization.getD "")
    if !(env.secretKeyConfig == some pair.1) then
      MwOutcome.pizzlyError "invalid_secret_key"
    else MwOutcome.callNext

/-- `publishableKey` middleware (`index.ts` lines 75-94): with
`PUBLISHABLE_KEY` falsy it calls `next()`; otherwise a non-string
`pizzly_pkey` query value throws `missing_publishable_key` and a mismatch
throws `invalid_publishable_key`. -/
def publishableKey (env : Env) (req : Request) : MwOutcome :=
  if !truthy env.publishableKeyConfig then
    MwOutcome.callNext
  else
    match req.pizzlyPkey with
    | none => MwOutcome.pizzlyError "missing_publishable_key"
    | some k =>
      if !(env.publishableKeyConfig == some k) then
        MwOutcome.pizzlyError "invalid_publishable_key"
      else MwOutcome.callNext

/-- C10: each middleware is a no-op when its configuration is absent --
for every request and every decoder, `basic` calls next when both
credential variables are unset, `secretKey` calls next when the secret key
is unset, and `publishableKey` calls next when the publishable key is
unset, so with no credentials configured no request is ever rejected. -/
theorem access_noop_when_unconfigured (env : Env) (decode : String → String) (req : Request) :
    (env.authenticationUser = none → env.authenticationPassword = none →
      basic env decode req = MwOutcome.callNext) ∧
    (env.secretKeyConfig = none → secretKey env decode req = MwOutcome.callNext) ∧
    (env.publishableKeyConfig = none → publishableKey env req = MwOutcome.callNext) := by
  refine ⟨fun hu hp => ?_, fun hs => ?_, fun hk => ?_⟩
  · rw [basic, hu, hp]
    rfl
  · rw [secretKey, hs]
    rfl
  · rw [publishableKey, hk]
    rfl

/-- C10 witness: with an entirely unset environment, a request carrying an
authorization header and a query key still passes all three middlewares. -/
theorem access_noop_when_unconfigured_witness :
    basic ⟨none, none, none, none⟩ id ⟨some "Basic Zm9vOmJhcg==", some "pk"⟩ =
      MwOutcome.callNext ∧
    secretKey ⟨none, none, none, none⟩ id ⟨some "Basic Zm9vOmJhcg==", some "pk"⟩ =
      MwOutcome.callNext ∧
    publishableKey ⟨none, none, none, none⟩ ⟨some "Basic Zm9vOmJhcg==", some "pk"⟩ =
      MwOutcome.callNext :=
  ⟨(access_noop_when_unconfigured ⟨none, none, none, none⟩ id
      ⟨some "Basic Zm9vOmJhcg==", some "pk"⟩).1 rfl rfl,
    (access_noop_when_unconfigured ⟨none, none, none, none⟩ id
      ⟨some "Basic Zm9vOmJhcg==", some "pk"⟩).2.1 rfl,
    (access_noop_when_unconfigured ⟨none, none, none, none⟩ id
      ⟨some "Basic Zm9vOmJhcg==", some "pk"⟩).2.2 rfl⟩

end Nango
